import Mathlib

/-!
Verification of the resharding-coordinator persistence protocol and of the
speculative-auth dispatcher of this repository.

The persistence engine (`resharding::persistInitialStateAndCatalogUpdates`,
`resharding::persistStateTransition`, `resharding::persistCommittedState`,
`resharding::removeCoordinatorDocAndReshardingFields`) is exercised here
through a shallow embedding of the four catalog stores (operations,
collections, chunks, zones) as explicit lists, with every operation an
executable function from catalog state to catalog state or a typed error.
The speculative-auth dispatcher is embedded directly from
src/mongo/db/repl/speculative_auth.cpp.
-/

/-- Lifecycle state of a resharding operation, in the forward order of the
coordinator state machine (CoordinatorStateEnum). -/
inductive CoordinatorState where
  | initializing
  | initialized
  | preparingToDonate
  | cloning
  | mirroring
  | committed
  | dropping
  | done
  | error
deriving DecidableEq, Repr

/-- The successor of a state in the forward chain of the state machine;
`none` for the terminal states. -/
def CoordinatorState.next : CoordinatorState → Option CoordinatorState
  | .initializing => some .initialized
  | .initialized => some .preparingToDonate
  | .preparingToDonate => some .cloning
  | .cloning => some .mirroring
  | .mirroring => some .committed
  | .committed => some .dropping
  | .dropping => some .done
  | .done => none
  | .error => none

/-- A transition is valid when it is the next forward step, or a step into
the error state from any state before the terminal states. -/
def validTransition (a b : CoordinatorState) : Bool :=
  decide (CoordinatorState.next a = some b) ||
    (decide (b = CoordinatorState.error) && !decide (a = CoordinatorState.done) &&
      !decide (a = CoordinatorState.error))

/-- Per-donor-shard sub-entry of the coordinator document. -/
structure DonorShardEntry where
  shardId : String
  minFetchTimestamp : Option Nat
deriving DecidableEq, Repr

/-- Per-recipient-shard sub-entry of the coordinator document. -/
structure RecipientShardEntry where
  shardId : String
  strictConsistencyTimestamp : Option Nat
deriving DecidableEq, Repr

/-- The coordinator document: canonical record of one resharding operation.
The operation identifier doubles as the collection uuid of the temporary
incarnation (in the source both are the resharding UUID, the document id). -/
structure CoordinatorDoc where
  operationId : Nat
  originalNss : String
  tempNss : String
  reshardingKey : String
  state : CoordinatorState
  fetchTimestamp : Option Nat
  donorShards : List DonorShardEntry
  recipientShards : List RecipientShardEntry
deriving DecidableEq, Repr

/-- Donor-side resharding metadata: the new key pattern. -/
structure DonorFields where
  reshardingKey : String
deriving DecidableEq, Repr

/-- Recipient-side resharding metadata: the original namespace and the
optional fetch timestamp. -/
structure RecipientFields where
  originalNss : String
  fetchTimestamp : Option Nat
deriving DecidableEq, Repr

/-- The resharding metadata mirrored into a collection catalog entry. -/
structure ReshardingFields where
  uuid : Nat
  state : CoordinatorState
  donorFields : Option DonorFields
  recipientFields : Option RecipientFields
deriving DecidableEq, Repr

/-- A collection catalog entry (config.collections document). -/
structure CollEntry where
  nss : String
  uuid : Nat
  epoch : Nat
  keyPattern : String
  reshardingFields : Option ReshardingFields
deriving DecidableEq, Repr

/-- A chunk ownership record (config.chunks document); `id` is the stable
record identity (the chunk name). -/
structure Chunk where
  id : Nat
  nss : String
  minKey : Nat
  maxKey : Nat
  version : Nat
  epoch : Nat
  shard : String
deriving DecidableEq, Repr

/-- A zone (tag) record (config.tags document), identified by namespace and
tag name. -/
structure Zone where
  nss : String
  tag : String
  minKey : Nat
  maxKey : Nat
deriving DecidableEq, Repr

/-- The four catalog stores the coordinator writes to. -/
structure CatalogState where
  operations : List CoordinatorDoc
  collections : List CollEntry
  chunks : List Chunk
  zones : List Zone
deriving DecidableEq, Repr

/-- Typed errors of the persistence engine. -/
inductive ReshardingError where
  | namespaceNotFound
  | noSuchCoordinatorDocument
deriving DecidableEq, Repr

/-- The stable numeric code of each persistence-engine error
(ErrorCodes::NamespaceNotFound and the uassert code of the missing-document
and count-mismatch failures). -/
def ReshardingError.code : ReshardingError → Nat
  | .namespaceNotFound => 26
  | .noSuchCoordinatorDocument => 5030400

/-- Insert-or-overwrite by a stable record key: if a record with the same
key is present, every such record is overwritten in place; otherwise the
record is appended.  This is the idempotent upsert-by-unique-key write the
catalog store exposes. -/
def upsertBy {α κ : Type} [BEq κ] (k : α → κ) (l : List α) (x : α) : List α :=
  if l.any (fun y => k y == k x) then
    l.map (fun y => if k y == k x then x else y)
  else
    l ++ [x]

/-- Role a namespace plays in a resharding operation. -/
inductive ReshardingRole where
  | donor
  | recipient
deriving DecidableEq, Repr

/-- Modelled from the spec: the Resharding Fields Projector (spec section
4.3) of the coordinator service, whose implementation is not among the
given sources (only its test, resharding_coordinator_test.cpp, is).  Given
a coordinator document and the role of the target namespace it computes the
reshardingFields that namespace's catalog entry must carry: original
namespace carries donorFields only (the new key pattern), temporary
namespace carries recipientFields only (original namespace and optional
fetch timestamp); both carry the operation id and state. -/
def projectReshardingFields (doc : CoordinatorDoc) (role : ReshardingRole) :
    ReshardingFields :=
  match role with
  | .donor =>
    { uuid := doc.operationId, state := doc.state,
      donorFields := some { reshardingKey := doc.reshardingKey },
      recipientFields := none }
  | .recipient =>
    { uuid := doc.operationId, state := doc.state,
      donorFields := none,
      recipientFields := some { originalNss := doc.originalNss,
                                fetchTimestamp := doc.fetchTimestamp } }

/-- Merge donorFields (with the projected state) into an entry when it is
the original namespace's entry; leave every other entry alone. -/
def setDonorFieldsOn (doc : CoordinatorDoc) (e : CollEntry) : CollEntry :=
  if e.nss == doc.originalNss then
    { e with reshardingFields := some (projectReshardingFields doc .donor) }
  else e

/-- The catalog entry created for the temporary namespace at
initialization: recipientFields referencing the original namespace, the new
key pattern, a freshly generated epoch (passed by the caller of the model),
and the collection uuid of the temporary incarnation. -/
def tempCollEntry (doc : CoordinatorDoc) (tempEpoch : Nat) : CollEntry :=
  { nss := doc.tempNss, uuid := doc.operationId, epoch := tempEpoch,
    keyPattern := doc.reshardingKey,
    reshardingFields := some (projectReshardingFields doc .recipient) }

/-- Modelled from the spec:
`resharding::persistInitialStateAndCatalogUpdates` (spec section 4.2),
whose implementation is not among the given sources (only its test is).
Fails with NamespaceNotFound when no catalog entry exists for the original
namespace; otherwise inserts the coordinator document, merges donorFields
into the original namespace's entry, creates the temporary namespace's
entry, and bulk-inserts the initial chunks and zones scoped to the
temporary namespace, every write an idempotent upsert by record identity. -/
def persistInitialStateAndCatalogUpdates (st : CatalogState)
    (doc : CoordinatorDoc) (tempEpoch : Nat) (initialChunks : List Chunk)
    (initialZones : List Zone) : Except ReshardingError CatalogState :=
  if (st.collections.find? (fun e => e.nss == doc.originalNss)).isSome then
    Except.ok
      { operations := upsertBy CoordinatorDoc.operationId st.operations doc,
        collections := upsertBy CollEntry.nss
          (st.collections.map (setDonorFieldsOn doc))
          (tempCollEntry doc tempEpoch),
        chunks := initialChunks.foldl (upsertBy Chunk.id) st.chunks,
        zones := initialZones.foldl (upsertBy (fun z => (z.nss, z.tag)))
          st.zones }
  else Except.error ReshardingError.namespaceNotFound

/-- Re-derive and overwrite the mirrored reshardingFields of an entry that
currently carries them, for whichever of the two namespaces of the
operation the entry belongs to. -/
def remirrorEntry (doc : CoordinatorDoc) (e : CollEntry) : CollEntry :=
  if e.reshardingFields.isSome then
    if e.nss == doc.originalNss then
      { e with reshardingFields := some (projectReshardingFields doc .donor) }
    else if e.nss == doc.tempNss then
      { e with
        reshardingFields := some (projectReshardingFields doc .recipient) }
    else e
  else e

/-- Modelled from the spec: `resharding::persistStateTransition` (spec
section 4.2), whose implementation is not among the given sources (only its
test is).  An update, never an upsert: fails with the missing-operation
error (uassert code 5030400 in the test) when no coordinator document with
the given operation id exists; otherwise overwrites the coordinator
document and re-projects the reshardingFields onto both namespace entries
that currently carry them. -/
def persistStateTransition (st : CatalogState) (doc : CoordinatorDoc) :
    Except ReshardingError CatalogState :=
  if (st.operations.find?
      (fun d => d.operationId == doc.operationId)).isSome then
    Except.ok
      { st with
        operations := upsertBy CoordinatorDoc.operationId st.operations doc,
        collections := st.collections.map (remirrorEntry doc) }
  else Except.error ReshardingError.noSuchCoordinatorDocument

/-- Rescope a chunk of the temporary namespace to the original namespace
under the new epoch; leave chunks of other namespaces alone. -/
def rescopeChunk (t o : String) (newEpoch : Nat) (c : Chunk) : Chunk :=
  if c.nss == t then { c with nss := o, epoch := newEpoch } else c

/-- Rescope a zone of the temporary namespace to the original namespace;
leave zones of other namespaces alone. -/
def rescopeZone (t o : String) (z : Zone) : Zone :=
  if z.nss == t then { z with nss := o } else z

/-- The commit-time rewrite of the original namespace's catalog entry: the
new epoch, the new key pattern, the identity (collection uuid) of the
temporary incarnation, and reshardingFields re-projected from the (now
Committed) coordinator document. -/
def commitCollEntry (doc : CoordinatorDoc) (newEpoch : Nat) (e : CollEntry) :
    CollEntry :=
  if e.nss == doc.originalNss then
    { e with
      uuid := doc.operationId
      epoch := newEpoch
      keyPattern := doc.reshardingKey
      reshardingFields := some (projectReshardingFields doc .donor) }
  else e

/-- The catalog mutation performed by a successful commit: delete the old
chunk/zone records of the original namespace's previous incarnation,
rescope every temporary-namespace chunk/zone record to the original
namespace, rewrite the original namespace's catalog entry, delete the
temporary namespace's catalog entry, and persist the coordinator
document. -/
def applyCommit (st : CatalogState) (doc : CoordinatorDoc) (newEpoch : Nat) :
    CatalogState :=
  { operations := upsertBy CoordinatorDoc.operationId st.operations doc,
    collections := (st.collections.filter
        (fun e => !(e.nss == doc.tempNss))).map (commitCollEntry doc newEpoch),
    chunks := (st.chunks.filter (fun c => !(c.nss == doc.originalNss))).map
      (rescopeChunk doc.tempNss doc.originalNss newEpoch),
    zones := (st.zones.filter (fun z => !(z.nss == doc.originalNss))).map
      (rescopeZone doc.tempNss doc.originalNss) }

/-- Modelled from the spec: `resharding::persistCommittedState` (spec
section 4.2), whose implementation is not among the given sources (only its
test is).  The consistency fence: the operation fails, with the same error
as the missing-coordinator-document case (uassert code 5030400 in the
test), unless the chunk and zone records currently scoped to the temporary
namespace number exactly the caller-supplied expected counts and the
coordinator document exists.  The deletion of the pre-existing original-
namespace chunk and zone records at commit follows the behavior asserted by
the test (PersistCommitSucceeds reads back exactly the rescoped records
under the original namespace). -/
def persistCommittedState (st : CatalogState) (doc : CoordinatorDoc)
    (newEpoch expectedChunkCount expectedZoneCount : Nat) :
    Except ReshardingError CatalogState :=
  if ((st.chunks.filter (fun c => c.nss == doc.tempNss)).length
        == expectedChunkCount)
      && ((st.zones.filter (fun z => z.nss == doc.tempNss)).length
        == expectedZoneCount)
      && (st.operations.find?
        (fun d => d.operationId == doc.operationId)).isSome then
    Except.ok (applyCommit st doc newEpoch)
  else Except.error ReshardingError.noSuchCoordinatorDocument

/-- Strip the reshardingFields entirely from the original namespace's
entry; every other field of the entry is untouched. -/
def stripFieldsOn (orig : String) (e : CollEntry) : CollEntry :=
  if e.nss == orig then { e with reshardingFields := none } else e

/-- Modelled from the spec:
`resharding::removeCoordinatorDocAndReshardingFields` (spec section 4.2),
whose implementation is not among the given sources (only its test is).
Deletes the coordinator document and strips reshardingFields from the
original namespace's catalog entry, leaving the entry itself in place. -/
def removeCoordinatorDocAndReshardingFields (st : CatalogState)
    (doc : CoordinatorDoc) : CatalogState :=
  { st with
    operations := st.operations.filter
      (fun d => !(d.operationId == doc.operationId)),
    collections := st.collections.map (stripFieldsOn doc.originalNss) }

/-- The catalog state observable after running a persistence-engine call on
a state: a typed error mutates nothing, success yields the new state. -/
def runState (st : CatalogState) (r : Except ReshardingError CatalogState) :
    CatalogState :=
  match r with
  | Except.ok st' => st'
  | Except.error _ => st

/-- A BSON value as far as handleIsMasterSpeculativeAuth inspects it: an
Object (an ordered list of named fields) or any non-object value (the
numeric type tag is irrelevant to the dispatcher). -/
inductive BsonValue where
  | obj (fields : List (String × BsonValue))
  | nonObject (typeTag : Nat)

/-- Fetch the first element of a command object with the given field name
(BSONObj::operator[]); `none` when the element is eoo. -/
def bsonLookup (cmdObj : List (String × BsonValue)) (name : String) :
    Option BsonValue :=
  (cmdObj.find? (fun f => f.fst == name)).map Prod.snd

/-- auth::kSpeculativeAuthenticate. -/
def kSpeculativeAuthenticate : String := "speculativeAuthenticate"

/-- saslStartCommandName. -/
def saslStartCommandName : String := "saslStart"

/-- auth::kAuthenticateCommand. -/
def kAuthenticateCommand : String := "authenticate"

/-- ErrorCodes::BadValue. -/
def kBadValueCode : Nat := 2

/-- The uasserted code for an unknown speculative-auth inner command. -/
def kUnknownSpecAuthCommandCode : Nat := 51769

/-- What handleIsMasterSpeculativeAuth did: nothing (the result builder is
untouched), or a dispatch of the inner object to exactly one of
doSpeculativeSaslStart or doSpeculativeAuthenticate. -/
inductive SpecAuthOutcome where
  | noOp
  | saslStart (specAuth : List (String × BsonValue))
  | authenticate (specAuth : List (String × BsonValue))

/-- Embedding of handleIsMasterSpeculativeAuth
(src/mongo/db/repl/speculative_auth.cpp): return silently when the command
object has no speculativeAuthenticate element; uassert BadValue when the
element is not an Object or is an empty Object; dispatch on the inner
object's first field name to doSpeculativeSaslStart or
doSpeculativeAuthenticate; uasserted 51769 on any other first field name.
Errors are the thrown uassert numeric codes. -/
def handleIsMasterSpeculativeAuth (cmdObj : List (String × BsonValue)) :
    Except Nat SpecAuthOutcome :=
  match bsonLookup cmdObj kSpeculativeAuthenticate with
  | none => Except.ok SpecAuthOutcome.noOp
  | some (BsonValue.nonObject _) => Except.error kBadValueCode
  | some (BsonValue.obj []) => Except.error kBadValueCode
  | some (BsonValue.obj ((name, v) :: rest)) =>
    if name == saslStartCommandName then
      Except.ok (SpecAuthOutcome.saslStart ((name, v) :: rest))
    else if name == kAuthenticateCommand then
      Except.ok (SpecAuthOutcome.authenticate ((name, v) :: rest))
    else Except.error kUnknownSpecAuthCommandCode

/-- A concrete coordinator document used to evaluate the model: operation 1
resharding "db.foo" into temporary namespace "db.tmp" under new key
"newSK". -/
def mkDoc (s : CoordinatorState) (ft : Option Nat) : CoordinatorDoc :=
  { operationId := 1
    originalNss := "db.foo"
    tempNss := "db.tmp"
    reshardingKey := "newSK"
    state := s
    fetchTimestamp := ft
    donorShards := [{ shardId := "shard0000", minFetchTimestamp := none }]
    recipientShards :=
      [{ shardId := "shard0001", strictConsistencyTimestamp := none }] }

/-- The original namespace's pre-resharding catalog entry, carrying no
resharding metadata. -/
def origEntryBare : CollEntry :=
  { nss := "db.foo", uuid := 100, epoch := 10, keyPattern := "oldSK",
    reshardingFields := none }

/-- A concrete empty catalog. -/
def stEmpty : CatalogState :=
  { operations := [], collections := [], chunks := [], zones := [] }

/-- A catalog holding only the original namespace's entry, as it stands
before a resharding operation is initialized. -/
def stWithOrig : CatalogState :=
  { operations := [], collections := [origEntryBare], chunks := [],
    zones := [] }

/-- Concrete chunks of the temporary namespace under its initial epoch. -/
def tChunk1 : Chunk :=
  { id := 1, nss := "db.tmp", minKey := 0, maxKey := 5, version := 1,
    epoch := 20, shard := "shard0000" }

/-- Second concrete chunk of the temporary namespace. -/
def tChunk2 : Chunk :=
  { id := 2, nss := "db.tmp", minKey := 5, maxKey := 10, version := 1,
    epoch := 20, shard := "shard0001" }

/-- A pre-existing chunk of the original namespace under the old epoch. -/
def oChunk1 : Chunk :=
  { id := 3, nss := "db.foo", minKey := 0, maxKey := 10, version := 1,
    epoch := 10, shard := "shard0000" }

/-- A zone of the temporary namespace. -/
def tZone1 : Zone :=
  { nss := "db.tmp", tag := "zone1", minKey := 0, maxKey := 5 }

/-- A pre-existing zone of the original namespace. -/
def oZone1 : Zone :=
  { nss := "db.foo", tag := "zone1", minKey := 0, maxKey := 10 }

/-- The catalog just before commit: coordinator document at Mirroring, both
catalog entries carrying their projected resharding fields, two chunks and
one zone under the temporary namespace and one old chunk and zone under the
original namespace. -/
def stMirroring : CatalogState :=
  { operations := [mkDoc CoordinatorState.mirroring (some 7)]
    collections :=
      [{ origEntryBare with
          reshardingFields := some (projectReshardingFields
            (mkDoc CoordinatorState.mirroring (some 7)) ReshardingRole.donor) },
        tempCollEntry (mkDoc CoordinatorState.mirroring (some 7)) 20]
    chunks := [tChunk1, tChunk2, oChunk1]
    zones := [tZone1, oZone1] }

/-- The catalog after the initialization of the operation, as produced by a
successful persistInitialStateAndCatalogUpdates on stWithOrig. -/
def stAfterInit : CatalogState :=
  { operations := [mkDoc CoordinatorState.initialized none]
    collections :=
      [setDonorFieldsOn (mkDoc CoordinatorState.initialized none) origEntryBare,
        tempCollEntry (mkDoc CoordinatorState.initialized none) 20]
    chunks := [tChunk1, tChunk2]
    zones := [tZone1] }


theorem map_pointwise_id {α : Type} {f : α → α} {l : List α}
    (h : ∀ x ∈ l, f x = x) : l.map f = l := by
  induction l with
  | nil => rfl
  | cons a t ih =>
    simp only [List.map_cons, h a (List.mem_cons_self a t)]
    rw [ih (fun x hx => h x (List.mem_cons_of_mem a hx))]

theorem upsertBy_mem_self {α κ : Type} [BEq κ] [LawfulBEq κ] (k : α → κ)
    (l : List α) (x : α) : x ∈ upsertBy k l x := by
  unfold upsertBy
  by_cases h : l.any (fun y => k y == k x) = true
  · simp only [h, if_true]
    rcases List.any_eq_true.mp h with ⟨y, hy, hky⟩
    exact List.mem_map.mpr ⟨y, hy, by simp [hky]⟩
  · simp only [h]
    simp

theorem upsertBy_matching_eq {α κ : Type} [BEq κ] [LawfulBEq κ] (k : α → κ)
    (l : List α) (x : α) : ∀ y ∈ upsertBy k l x, k y = k x → y = x := by
  intro y hy hk
  unfold upsertBy at hy
  by_cases h : l.any (fun y => k y == k x) = true
  · simp only [h, if_true] at hy
    rcases List.mem_map.mp hy with ⟨z, _, hz⟩
    by_cases hkz : (k z == k x) = true
    · rw [if_pos hkz] at hz; exact hz.symm
    · rw [if_neg hkz] at hz
      subst hz
      exact absurd (beq_iff_eq.mpr hk) hkz
  · simp only [h] at hy
    simp only [Bool.not_eq_true] at h
    rcases List.mem_append.mp hy with hmem | hmem
    · have := List.any_eq_false.mp h y hmem
      exact absurd (beq_iff_eq.mpr hk) (by simpa using this)
    · simpa using hmem

theorem upsertBy_eq_self {α κ : Type} [BEq κ] [LawfulBEq κ] (k : α → κ)
    (l : List α) (x : α) (hmem : ∃ y ∈ l, k y = k x)
    (hall : ∀ y ∈ l, k y = k x → y = x) : upsertBy k l x = l := by
  unfold upsertBy
  rcases hmem with ⟨y, hy, hky⟩
  have hany : l.any (fun y => k y == k x) = true :=
    List.any_eq_true.mpr ⟨y, hy, beq_iff_eq.mpr hky⟩
  simp only [hany, if_true]
  apply map_pointwise_id
  intro z hz
  by_cases hkz : (k z == k x) = true
  · rw [if_pos hkz]; exact (hall z hz (beq_iff_eq.mp hkz)).symm
  · rw [if_neg hkz]

theorem upsertBy_idem {α κ : Type} [BEq κ] [LawfulBEq κ] (k : α → κ)
    (l : List α) (x : α) : upsertBy k (upsertBy k l x) x = upsertBy k l x :=
  upsertBy_eq_self k _ x ⟨x, upsertBy_mem_self k l x, rfl⟩
    (upsertBy_matching_eq k l x)

theorem upsertBy_preserve_mem {α κ : Type} [BEq κ] [LawfulBEq κ] (k : α → κ)
    {l : List α} {c : α} (x : α) (hc : c ∈ l) (hk : ¬ k c = k x) :
    c ∈ upsertBy k l x := by
  unfold upsertBy
  by_cases h : l.any (fun y => k y == k x) = true
  · simp only [h, if_true]
    refine List.mem_map.mpr ⟨c, hc, ?_⟩
    rw [if_neg (by simpa using hk)]
  · simp only [h]
    exact List.mem_append.mpr (Or.inl hc)

theorem upsertBy_preserve_matching {α κ : Type} [BEq κ] [LawfulBEq κ]
    (k : α → κ) {l : List α} {c : α} (x : α)
    (hall : ∀ y ∈ l, k y = k c → y = c) (hk : ¬ k x = k c) :
    ∀ y ∈ upsertBy k l x, k y = k c → y = c := by
  intro y hy hky
  unfold upsertBy at hy
  by_cases h : l.any (fun y => k y == k x) = true
  · simp only [h, if_true] at hy
    rcases List.mem_map.mp hy with ⟨z, hz, hzy⟩
    by_cases hkz : (k z == k x) = true
    · rw [if_pos hkz] at hzy
      subst hzy
      exact absurd hky hk
    · rw [if_neg hkz] at hzy
      subst hzy
      exact hall z hz hky
  · simp only [h] at hy
    rcases List.mem_append.mp hy with hmem | hmem
    · exact hall y hmem hky
    · have : y = x := by simpa using hmem
      subst this
      exact absurd hky hk

theorem foldl_upsertBy_keeps {α κ : Type} [BEq κ] [LawfulBEq κ] (k : α → κ)
    {c : α} (cs : List α) (l : List α)
    (hcs : ∀ x ∈ cs, ¬ k x = k c) (hmem : c ∈ l)
    (hall : ∀ y ∈ l, k y = k c → y = c) :
    c ∈ cs.foldl (upsertBy k) l ∧
      ∀ y ∈ cs.foldl (upsertBy k) l, k y = k c → y = c := by
  induction cs generalizing l with
  | nil => exact ⟨hmem, hall⟩
  | cons x t ih =>
    have hx : ¬ k x = k c := hcs x (List.mem_cons_self x t)
    have hmem' : c ∈ upsertBy k l x :=
      upsertBy_preserve_mem k x hmem (fun h => hx h.symm)
    have hall' : ∀ y ∈ upsertBy k l x, k y = k c → y = c :=
      upsertBy_preserve_matching k x hall hx
    exact ih _ (fun z hz => hcs z (List.mem_cons_of_mem x hz)) hmem' hall'

theorem foldl_upsertBy_replay {α κ : Type} [BEq κ] [LawfulBEq κ] (k : α → κ)
    (cs : List α) (l : List α)
    (hdist : cs.Pairwise (fun a b => ¬ k a = k b)) :
    cs.foldl (upsertBy k) (cs.foldl (upsertBy k) l) = cs.foldl (upsertBy k) l := by
  induction cs generalizing l with
  | nil => rfl
  | cons c t ih =>
    simp only [List.foldl_cons]
    have hdt : ∀ x ∈ t, ¬ k x = k c := by
      intro x hx h
      exact (List.pairwise_cons.mp hdist).1 x hx h.symm
    have hkeep := foldl_upsertBy_keeps k t (upsertBy k l c) hdt
      (upsertBy_mem_self k l c) (upsertBy_matching_eq k l c)
    rw [upsertBy_eq_self k _ c ⟨c, hkeep.1, rfl⟩ hkeep.2]
    exact ih _ (List.pairwise_cons.mp hdist).2

theorem map_upsertBy_comm {α κ : Type} [BEq κ] [LawfulBEq κ] (k : α → κ)
    (f : α → α) (hf : ∀ y, k (f y) = k y) (l : List α) (x : α) :
    (upsertBy k l x).map f = upsertBy k (l.map f) (f x) := by
  unfold upsertBy
  have hany : (l.map f).any (fun y => k y == k (f x)) =
      l.any (fun y => k y == k x) := by
    rw [List.any_map]
    congr 1
    funext y
    simp [Function.comp, hf]
  rw [hany]
  by_cases h : l.any (fun y => k y == k x) = true
  · rw [if_pos h, if_pos h, List.map_map, List.map_map]
    apply List.map_congr_left
    intro y _
    by_cases hky : (k y == k x) = true
    · simp only [Function.comp_apply, if_pos hky]
      rw [if_pos (by rw [hf y, hf x]; exact hky)]
    · simp only [Function.comp_apply, if_neg hky]
      rw [if_neg (by rw [hf y, hf x]; exact hky)]
  · rw [if_neg h, if_neg h]
    simp

theorem find?_cons_eq_ite {α : Type} (p : α → Bool) (a : α) (l : List α) :
    (a :: l).find? p = if p a then some a else l.find? p := by
  by_cases h : p a = true
  · simp [List.find?_cons_of_pos _ h, h]
  · have h' : p a = false := by simpa using h
    simp [List.find?_cons_of_neg, h']

theorem find?_upsertBy {α κ : Type} [BEq κ] [LawfulBEq κ] (k : α → κ)
    (l : List α) (x : α) :
    (upsertBy k l x).find? (fun y => k y == k x) = some x := by
  have hrepl : ∀ (m : List α),
      (m.map (fun y => if k y == k x then x else y)).find?
          (fun y => k y == k x) =
        (m.find? (fun y => k y == k x)).map (fun _ => x) := by
    intro m
    induction m with
    | nil => rfl
    | cons a t ih =>
      by_cases hka : (k a == k x) = true
      · rw [List.map_cons, if_pos hka, find?_cons_eq_ite, find?_cons_eq_ite]
        simp only [hka, beq_self_eq_true, if_true]
        rfl
      · have hka' : (k a == k x) = false := by simpa using hka
        rw [List.map_cons, if_neg hka, find?_cons_eq_ite, find?_cons_eq_ite]
        simp only [hka', Bool.false_eq_true, if_false]
        exact ih
  unfold upsertBy
  by_cases h : l.any (fun y => k y == k x) = true
  · rw [if_pos h, hrepl l]
    rcases List.any_eq_true.mp h with ⟨y, hy, hky⟩
    have hne : l.find? (fun y => k y == k x) ≠ none := by
      intro hnone
      exact absurd hky (by simpa using List.find?_eq_none.mp hnone y hy)
    rcases Option.ne_none_iff_exists'.mp hne with ⟨z, hz⟩
    rw [hz]
    rfl
  · rw [if_neg h]
    have hnone : l.find? (fun y => k y == k x) = none := by
      apply List.find?_eq_none.mpr
      intro y hy hpy
      exact h (List.any_eq_true.mpr ⟨y, hy, hpy⟩)
    rw [List.find?_append, hnone]
    simp

theorem upsertBy_count_one {α κ : Type} [BEq κ] [LawfulBEq κ] (k : α → κ)
    (l : List α) (x : α)
    (h : (l.filter (fun y => k y == k x)).length ≤ 1) :
    ((upsertBy k l x).filter (fun y => k y == k x)).length = 1 := by
  have hcomm : ∀ (m : List α),
      (m.map (fun y => if k y == k x then x else y)).filter
        (fun y => k y == k x) =
        (m.filter (fun y => k y == k x)).map
          (fun y => if k y == k x then x else y) := by
    intro m
    induction m with
    | nil => rfl
    | cons a t ih =>
      by_cases hka : (k a == k x) = true
      · rw [List.map_cons, if_pos hka]
        simp only [List.filter_cons, hka, beq_self_eq_true, if_true,
          List.map_cons, if_pos hka]
        rw [ih]
      · have hka' : (k a == k x) = false := by simpa using hka
        rw [List.map_cons, if_neg hka]
        simp only [List.filter_cons, hka', Bool.false_eq_true, if_false]
        exact ih
  unfold upsertBy
  by_cases hany : l.any (fun y => k y == k x) = true
  · rw [if_pos hany, hcomm l, List.length_map]
    rcases List.any_eq_true.mp hany with ⟨y, hy, hky⟩
    have hge : 1 ≤ (l.filter (fun y => k y == k x)).length := by
      have : y ∈ l.filter (fun y => k y == k x) :=
        List.mem_filter.mpr ⟨hy, hky⟩
      exact List.length_pos.mpr (List.ne_nil_of_mem this)
    omega
  · rw [if_neg hany, List.filter_append]
    have hnil : l.filter (fun y => k y == k x) = [] := by
      apply List.filter_eq_nil_iff.mpr
      intro y hy hpy
      exact hany (List.any_eq_true.mpr ⟨y, hy, hpy⟩)
    rw [hnil]
    simp

/-- C10: handleIsMasterSpeculativeAuth is a no-op (ok result, builder
untouched, no error) whenever the command object has no
speculativeAuthenticate field; when the field is present it raises BadValue
if it is not an Object or is an empty Object, raises error 51769 if the
inner object's first field name is neither the saslStart command name nor
the authenticate command name, and otherwise dispatches to exactly one of
doSpeculativeSaslStart or doSpeculativeAuthenticate. -/
theorem handleIsMasterSpeculativeAuth_cases
    (cmdObj : List (String × BsonValue)) :
    (bsonLookup cmdObj kSpeculativeAuthenticate = none →
      handleIsMasterSpeculativeAuth cmdObj = Except.ok SpecAuthOutcome.noOp) ∧
    (∀ t, bsonLookup cmdObj kSpeculativeAuthenticate =
        some (BsonValue.nonObject t) →
      handleIsMasterSpeculativeAuth cmdObj = Except.error kBadValueCode) ∧
    (bsonLookup cmdObj kSpeculativeAuthenticate = some (BsonValue.obj []) →
      handleIsMasterSpeculativeAuth cmdObj = Except.error kBadValueCode) ∧
    (∀ fname v rest, bsonLookup cmdObj kSpeculativeAuthenticate =
        some (BsonValue.obj ((fname, v) :: rest)) →
      (fname = saslStartCommandName →
        handleIsMasterSpeculativeAuth cmdObj =
          Except.ok (SpecAuthOutcome.saslStart ((fname, v) :: rest))) ∧
      (fname ≠ saslStartCommandName → fname = kAuthenticateCommand →
        handleIsMasterSpeculativeAuth cmdObj =
          Except.ok (SpecAuthOutcome.authenticate ((fname, v) :: rest))) ∧
      (fname ≠ saslStartCommandName → fname ≠ kAuthenticateCommand →
        handleIsMasterSpeculativeAuth cmdObj =
          Except.error kUnknownSpecAuthCommandCode)) := by
  refine ⟨?_, ?_, ?_, ?_⟩
  · intro h
    simp [handleIsMasterSpeculativeAuth, h]
  · intro t h
    simp [handleIsMasterSpeculativeAuth, h]
  · intro h
    simp [handleIsMasterSpeculativeAuth, h]
  · intro fname v rest h
    refine ⟨?_, ?_, ?_⟩
    · intro hn
      simp [handleIsMasterSpeculativeAuth, h, hn]
    · intro hn1 hn2
      subst hn2
      have hns : ¬ kAuthenticateCommand = saslStartCommandName := by decide
      simp [handleIsMasterSpeculativeAuth, h, hns]
    · intro hn1 hn2
      simp [handleIsMasterSpeculativeAuth, h, hn1, hn2]

/-- Witness for C10: the theorem evaluated on a concrete absent field and a
concrete saslStart dispatch. -/
theorem handleIsMasterSpeculativeAuth_cases_witness :
    handleIsMasterSpeculativeAuth [] = Except.ok SpecAuthOutcome.noOp ∧
    handleIsMasterSpeculativeAuth
        [(kSpeculativeAuthenticate,
          BsonValue.obj [("saslStart", BsonValue.nonObject 1)])] =
      Except.ok (SpecAuthOutcome.saslStart
        [("saslStart", BsonValue.nonObject 1)]) :=
  ⟨(handleIsMasterSpeculativeAuth_cases []).1 rfl,
    ((handleIsMasterSpeculativeAuth_cases
        [(kSpeculativeAuthenticate,
          BsonValue.obj [("saslStart", BsonValue.nonObject 1)])]).2.2.2
      "saslStart" (BsonValue.nonObject 1) [] rfl).1 rfl⟩

/-- C4: persistInitialStateAndCatalogUpdates fails with the
NamespaceNotFound precondition-violation error, mutating nothing (an error
result carries no catalog state), whenever no catalog entry exists for the
coordinator document's original namespace. -/
theorem persistInitialStateAndCatalogUpdates_missing_nss_fails
    (st : CatalogState) (doc : CoordinatorDoc) (tempEpoch : Nat)
    (cs : List Chunk) (zs : List Zone)
    (h : st.collections.find? (fun e => e.nss == doc.originalNss) = none) :
    persistInitialStateAndCatalogUpdates st doc tempEpoch cs zs =
      Except.error ReshardingError.namespaceNotFound ∧
    ReshardingError.code ReshardingError.namespaceNotFound = 26 := by
  refine ⟨?_, rfl⟩
  unfold persistInitialStateAndCatalogUpdates
  rw [h]
  rfl

/-- Witness for C4: a catalog with no entry at all for the original
namespace. -/
theorem persistInitialStateAndCatalogUpdates_missing_nss_fails_witness :
    persistInitialStateAndCatalogUpdates stEmpty
        (mkDoc CoordinatorState.initialized none) 20 [] [] =
      Except.error ReshardingError.namespaceNotFound ∧
    ReshardingError.code ReshardingError.namespaceNotFound = 26 :=
  persistInitialStateAndCatalogUpdates_missing_nss_fails stEmpty
    (mkDoc CoordinatorState.initialized none) 20 [] [] rfl

/-- C5: persistStateTransition fails with the missing-operation error (a
distinct, stable code, 5030400) and mutates nothing whenever no coordinator
document with the given operation identifier exists: it is an update, never
an upsert. -/
theorem persistStateTransition_missing_doc_fails
    (st : CatalogState) (doc : CoordinatorDoc)
    (h : st.operations.find?
      (fun d => d.operationId == doc.operationId) = none) :
    persistStateTransition st doc =
      Except.error ReshardingError.noSuchCoordinatorDocument ∧
    ReshardingError.code ReshardingError.noSuchCoordinatorDocument = 5030400 ∧
    ReshardingError.noSuchCoordinatorDocument ≠
      ReshardingError.namespaceNotFound := by
  refine ⟨?_, rfl, by decide⟩
  unfold persistStateTransition
  rw [h]
  rfl

/-- Witness for C5: a transition attempted against an empty operations
store. -/
theorem persistStateTransition_missing_doc_fails_witness :
    persistStateTransition stEmpty (mkDoc CoordinatorState.cloning (some 1)) =
      Except.error ReshardingError.noSuchCoordinatorDocument ∧
    ReshardingError.code ReshardingError.noSuchCoordinatorDocument = 5030400 ∧
    ReshardingError.noSuchCoordinatorDocument ≠
      ReshardingError.namespaceNotFound :=
  persistStateTransition_missing_doc_fails stEmpty
    (mkDoc CoordinatorState.cloning (some 1)) rfl

/-- C3: persistCommittedState fails, mutating nothing, whenever the number
of chunk or zone records currently scoped to the temporary namespace does
not equal the caller-supplied expected count; the failure carries the same
error as the missing-coordinator-document case. -/
theorem persistCommittedState_count_mismatch_fails
    (st : CatalogState) (doc : CoordinatorDoc) (newEpoch ec ez : Nat)
    (h : (st.chunks.filter (fun c => c.nss == doc.tempNss)).length ≠ ec ∨
      (st.zones.filter (fun z => z.nss == doc.tempNss)).length ≠ ez) :
    persistCommittedState st doc newEpoch ec ez =
      Except.error ReshardingError.noSuchCoordinatorDocument := by
  have hcond : ¬((((st.chunks.filter
        (fun c => c.nss == doc.tempNss)).length == ec)
      && ((st.zones.filter (fun z => z.nss == doc.tempNss)).length == ez)
      && (st.operations.find?
        (fun d => d.operationId == doc.operationId)).isSome) = true) := by
    simp only [Bool.and_eq_true, beq_iff_eq]
    rintro ⟨⟨h1, h2⟩, _⟩
    rcases h with h | h
    · exact h h1
    · exact h h2
  unfold persistCommittedState
  rw [if_neg hcond]

/-- Witness for C3: committing with an expected chunk count of 5 while only
two chunks are scoped to the temporary namespace. -/
theorem persistCommittedState_count_mismatch_fails_witness :
    persistCommittedState stMirroring
        (mkDoc CoordinatorState.committed (some 7)) 30 5 1 =
      Except.error ReshardingError.noSuchCoordinatorDocument :=
  persistCommittedState_count_mismatch_fails stMirroring
    (mkDoc CoordinatorState.committed (some 7)) 30 5 1 (Or.inl (by decide))

/-- C8: after removeCoordinatorDocAndReshardingFields, no coordinator
document exists for the operation identifier, the original namespace's
catalog entry carries no reshardingFields, and every entry still exists
with its namespace, identity, epoch and key pattern unchanged; chunks and
zones are untouched. -/
theorem removeCoordinatorDocAndReshardingFields_postconditions
    (st : CatalogState) (doc : CoordinatorDoc) :
    ((removeCoordinatorDocAndReshardingFields st doc).operations.find?
      (fun d => d.operationId == doc.operationId) = none) ∧
    (∀ e ∈ (removeCoordinatorDocAndReshardingFields st doc).collections,
      e.nss = doc.originalNss → e.reshardingFields = none) ∧
    ((removeCoordinatorDocAndReshardingFields st doc).collections.map
        (fun e => (e.nss, e.uuid, e.epoch, e.keyPattern)) =
      st.collections.map (fun e => (e.nss, e.uuid, e.epoch, e.keyPattern))) ∧
    ((removeCoordinatorDocAndReshardingFields st doc).chunks = st.chunks) ∧
    ((removeCoordinatorDocAndReshardingFields st doc).zones = st.zones) := by
  refine ⟨?_, ?_, ?_, rfl, rfl⟩
  · apply List.find?_eq_none.mpr
    intro d hd
    have hmem := (List.mem_filter.mp hd).2
    simpa using hmem
  · intro e he hnss
    rcases List.mem_map.mp he with ⟨e0, _, rfl⟩
    unfold stripFieldsOn at hnss ⊢
    by_cases h0 : (e0.nss == doc.originalNss) = true
    · rw [if_pos h0]
    · rw [if_neg h0] at hnss ⊢
      exact absurd (beq_iff_eq.mpr hnss) h0
  · simp only [removeCoordinatorDocAndReshardingFields]
    rw [List.map_map]
    apply List.map_congr_left
    intro e _
    simp only [Function.comp_apply, stripFieldsOn]
    by_cases h0 : (e.nss == doc.originalNss) = true
    · rw [if_pos h0]
    · rw [if_neg h0]

theorem mem_upsertBy {α κ : Type} [BEq κ] [LawfulBEq κ] (k : α → κ)
    {l : List α} {x y : α} (hy : y ∈ upsertBy k l x) : y ∈ l ∨ y = x := by
  unfold upsertBy at hy
  by_cases h : l.any (fun z => k z == k x) = true
  · rw [if_pos h] at hy
    rcases List.mem_map.mp hy with ⟨z, hz, hzy⟩
    by_cases hkz : (k z == k x) = true
    · rw [if_pos hkz] at hzy
      right
      exact hzy.symm
    · rw [if_neg hkz] at hzy
      left
      rw [← hzy]
      exact hz
  · rw [if_neg h] at hy
    rcases List.mem_append.mp hy with h1 | h1
    · left
      exact h1
    · right
      simpa using h1

theorem filter_map_pred {α : Type} (f : α → α) (p : α → Bool)
    (hf : ∀ x, p (f x) = p x) (l : List α) :
    (l.map f).filter p = (l.filter p).map f := by
  induction l with
  | nil => rfl
  | cons a t ih =>
    by_cases ha : p a = true
    · simp only [List.map_cons, List.filter_cons, hf, ha, if_true]
      rw [ih]
    · have ha' : p a = false := by simpa using ha
      simp only [List.map_cons, List.filter_cons, hf, ha', Bool.false_eq_true,
        if_false]
      exact ih

theorem setDonorFieldsOn_nss (doc : CoordinatorDoc) (e : CollEntry) :
    (setDonorFieldsOn doc e).nss = e.nss := by
  unfold setDonorFieldsOn
  by_cases h : (e.nss == doc.originalNss) = true
  · rw [if_pos h]
  · rw [if_neg h]

theorem remirrorEntry_nss (doc : CoordinatorDoc) (e : CollEntry) :
    (remirrorEntry doc e).nss = e.nss := by
  unfold remirrorEntry
  by_cases hs : e.reshardingFields.isSome = true
  · rw [if_pos hs]
    by_cases ho : (e.nss == doc.originalNss) = true
    · rw [if_pos ho]
    · rw [if_neg ho]
      by_cases ht : (e.nss == doc.tempNss) = true
      · rw [if_pos ht]
      · rw [if_neg ht]
  · rw [if_neg hs]

theorem remirrorEntry_state (doc : CoordinatorDoc) (e : CollEntry)
    (hnss : e.nss = doc.originalNss ∨ e.nss = doc.tempNss) :
    ∀ rf, (remirrorEntry doc e).reshardingFields = some rf →
      rf.state = doc.state := by
  intro rf hrf
  unfold remirrorEntry at hrf
  by_cases hs : e.reshardingFields.isSome = true
  · rw [if_pos hs] at hrf
    by_cases ho : (e.nss == doc.originalNss) = true
    · rw [if_pos ho] at hrf
      have h2 : projectReshardingFields doc ReshardingRole.donor = rf := by
        injection hrf
      rw [← h2]
      rfl
    · rw [if_neg ho] at hrf
      by_cases ht : (e.nss == doc.tempNss) = true
      · rw [if_pos ht] at hrf
        have h2 : projectReshardingFields doc ReshardingRole.recipient = rf := by
          injection hrf
        rw [← h2]
        rfl
      · rcases hnss with hnss | hnss
        · exact absurd (beq_iff_eq.mpr hnss) ho
        · exact absurd (beq_iff_eq.mpr hnss) ht
  · rw [if_neg hs] at hrf
    exact absurd (by rw [hrf]; rfl) hs

/-- C2: for every valid transition of the state machine, after a successful
persistStateTransition the persisted coordinator document is the supplied
one and the reshardingFields.state mirrored onto every catalog entry of the
operation's original or temporary namespace that carries reshardingFields
equals the coordinator document's state. -/
theorem persistStateTransition_mirrors_state
    (st st' : CatalogState) (doc : CoordinatorDoc) (prev : CoordinatorState)
    (_hvalid : validTransition prev doc.state = true)
    (h : persistStateTransition st doc = Except.ok st') :
    (st'.operations.find?
      (fun d => d.operationId == doc.operationId) = some doc) ∧
    ∀ e ∈ st'.collections,
      (e.nss = doc.originalNss ∨ e.nss = doc.tempNss) →
      ∀ rf, e.reshardingFields = some rf → rf.state = doc.state := by
  unfold persistStateTransition at h
  by_cases hg : (st.operations.find?
      (fun d => d.operationId == doc.operationId)).isSome = true
  · rw [if_pos hg] at h
    obtain rfl := Except.ok.inj h
    constructor
    · exact find?_upsertBy CoordinatorDoc.operationId st.operations doc
    · intro e he hnss rf hrf
      rcases List.mem_map.mp he with ⟨e0, _, rfl⟩
      rw [remirrorEntry_nss] at hnss
      exact remirrorEntry_state doc e0 hnss rf hrf
  · rw [if_neg hg] at h
    exact Except.noConfusion h

/-- Witness for C2: the Initialized to PreparingToDonate transition applied
to the concrete post-initialization catalog. -/
theorem persistStateTransition_mirrors_state_witness :
    ((runState stAfterInit (persistStateTransition stAfterInit
        (mkDoc CoordinatorState.preparingToDonate none))).operations.find?
      (fun d => d.operationId ==
        (mkDoc CoordinatorState.preparingToDonate none).operationId) =
      some (mkDoc CoordinatorState.preparingToDonate none)) ∧
    ∀ e ∈ (runState stAfterInit (persistStateTransition stAfterInit
        (mkDoc CoordinatorState.preparingToDonate none))).collections,
      (e.nss = (mkDoc CoordinatorState.preparingToDonate none).originalNss ∨
        e.nss = (mkDoc CoordinatorState.preparingToDonate none).tempNss) →
      ∀ rf, e.reshardingFields = some rf →
        rf.state = (mkDoc CoordinatorState.preparingToDonate none).state :=
  persistStateTransition_mirrors_state stAfterInit _
    (mkDoc CoordinatorState.preparingToDonate none)
    CoordinatorState.initialized (by decide) rfl

/-- C6: after persistInitialStateAndCatalogUpdates succeeds, exactly one
catalog entry exists for the temporary namespace and it carries
recipientFields referencing the original namespace with no donorFields; the
original namespace's entry exists and carries donorFields holding the new
shard key pattern with no recipientFields. -/
theorem persistInitialStateAndCatalogUpdates_postconditions
    (st st' : CatalogState) (doc : CoordinatorDoc) (te : Nat)
    (cs : List Chunk) (zs : List Zone)
    (hne : doc.originalNss ≠ doc.tempNss)
    (hdup : (st.collections.filter
      (fun e => e.nss == doc.tempNss)).length ≤ 1)
    (h : persistInitialStateAndCatalogUpdates st doc te cs zs =
      Except.ok st') :
    ((st'.collections.filter (fun e => e.nss == doc.tempNss)).length = 1) ∧
    (∀ e ∈ st'.collections, e.nss = doc.tempNss →
      ∃ rf, e.reshardingFields = some rf ∧
        (∃ rcp, rf.recipientFields = some rcp ∧
          rcp.originalNss = doc.originalNss) ∧
        rf.donorFields = none) ∧
    (st'.collections.filter (fun e => e.nss == doc.originalNss) ≠ []) ∧
    (∀ e ∈ st'.collections, e.nss = doc.originalNss →
      ∃ rf, e.reshardingFields = some rf ∧
        (∃ df, rf.donorFields = some df ∧
          df.reshardingKey = doc.reshardingKey) ∧
        rf.recipientFields = none) := by
  unfold persistInitialStateAndCatalogUpdates at h
  by_cases hg : (st.collections.find?
      (fun e => e.nss == doc.originalNss)).isSome = true
  case neg =>
    rw [if_neg hg] at h
    exact Except.noConfusion h
  rw [if_pos hg] at h
  obtain rfl := Except.ok.inj h
  have hfpres : ∀ e, ((setDonorFieldsOn doc e).nss == doc.tempNss) =
      (e.nss == doc.tempNss) := by
    intro e
    rw [setDonorFieldsOn_nss]
  refine ⟨?_, ?_, ?_, ?_⟩
  · have hlen : (((st.collections.map (setDonorFieldsOn doc)).filter
        (fun e => e.nss == doc.tempNss)).length) ≤ 1 := by
      rw [filter_map_pred (setDonorFieldsOn doc)
        (fun e => e.nss == doc.tempNss) hfpres st.collections,
        List.length_map]
      exact hdup
    exact upsertBy_count_one CollEntry.nss
      (st.collections.map (setDonorFieldsOn doc)) (tempCollEntry doc te) hlen
  · intro e he htmp
    have hkeq : CollEntry.nss e = CollEntry.nss (tempCollEntry doc te) := htmp
    have hex := upsertBy_matching_eq CollEntry.nss
      (st.collections.map (setDonorFieldsOn doc)) (tempCollEntry doc te)
      e he hkeq
    rw [hex]
    exact ⟨projectReshardingFields doc ReshardingRole.recipient, rfl,
      ⟨{ originalNss := doc.originalNss,
         fetchTimestamp := doc.fetchTimestamp }, rfl, rfl⟩, rfl⟩
  · rcases List.find?_isSome.mp hg with ⟨e0, he0, hp⟩
    have hA : setDonorFieldsOn doc e0 ∈
        st.collections.map (setDonorFieldsOn doc) :=
      List.mem_map.mpr ⟨e0, he0, rfl⟩
    have hk : ¬ CollEntry.nss (setDonorFieldsOn doc e0) =
        CollEntry.nss (tempCollEntry doc te) := by
      rw [setDonorFieldsOn_nss]
      rw [beq_iff_eq] at hp
      rw [hp]
      exact hne
    have hmem' := upsertBy_preserve_mem CollEntry.nss
      (tempCollEntry doc te) hA hk
    apply List.ne_nil_of_mem
    refine List.mem_filter.mpr ⟨hmem', ?_⟩
    rw [setDonorFieldsOn_nss]
    exact hp
  · intro e he ho
    rcases mem_upsertBy CollEntry.nss he with hA | hx
    · rcases List.mem_map.mp hA with ⟨e0, _, rfl⟩
      rw [setDonorFieldsOn_nss] at ho
      have hp : (e0.nss == doc.originalNss) = true := beq_iff_eq.mpr ho
      simp only [setDonorFieldsOn, hp, if_true]
      exact ⟨projectReshardingFields doc ReshardingRole.donor, rfl,
        ⟨{ reshardingKey := doc.reshardingKey }, rfl, rfl⟩, rfl⟩
    · rw [hx] at ho
      exact absurd (show doc.tempNss = doc.originalNss from ho)
        (fun hh => hne hh.symm)

/-- Witness for C6: initialization applied to the concrete catalog holding
only the original namespace's entry. -/
theorem persistInitialStateAndCatalogUpdates_postconditions_witness :
    ((stAfterInit.collections.filter
      (fun e => e.nss ==
        (mkDoc CoordinatorState.initialized none).tempNss)).length = 1) ∧
    (∀ e ∈ stAfterInit.collections,
      e.nss = (mkDoc CoordinatorState.initialized none).tempNss →
      ∃ rf, e.reshardingFields = some rf ∧
        (∃ rcp, rf.recipientFields = some rcp ∧
          rcp.originalNss =
            (mkDoc CoordinatorState.initialized none).originalNss) ∧
        rf.donorFields = none) ∧
    (stAfterInit.collections.filter
      (fun e => e.nss ==
        (mkDoc CoordinatorState.initialized none).originalNss) ≠ []) ∧
    (∀ e ∈ stAfterInit.collections,
      e.nss = (mkDoc CoordinatorState.initialized none).originalNss →
      ∃ rf, e.reshardingFields = some rf ∧
        (∃ df, rf.donorFields = some df ∧
          df.reshardingKey =
            (mkDoc CoordinatorState.initialized none).reshardingKey) ∧
        rf.recipientFields = none) :=
  persistInitialStateAndCatalogUpdates_postconditions stWithOrig stAfterInit
    (mkDoc CoordinatorState.initialized none) 20 [tChunk1, tChunk2] [tZone1]
    (by decide) (by decide) rfl

theorem rescope_filter_exact {α : Type} (g : α → String) (f : α → α)
    (t o : String) (hne : ¬ o = t)
    (h1 : ∀ c, g c = t → g (f c) = o)
    (h2 : ∀ c, ¬ g c = t → f c = c) (l : List α) :
    ((l.filter (fun c => !(g c == o))).map f).filter (fun c => g c == o) =
      (l.filter (fun c => g c == t)).map f := by
  induction l with
  | nil => rfl
  | cons a tl ih =>
    by_cases gat : (g a == t) = true
    · have hgat : g a = t := beq_iff_eq.mp gat
      have gao : (g a == o) = false := by
        rw [hgat]
        simp only [beq_eq_false_iff_ne, ne_eq]
        exact fun hh => hne hh.symm
      have gfo : (g (f a) == o) = true := beq_iff_eq.mpr (h1 a hgat)
      simp only [List.filter_cons, gao, Bool.not_false, if_true, gat,
        List.map_cons, gfo]
      rw [ih]
    · have gat' : (g a == t) = false := by simpa using gat
      by_cases gao : (g a == o) = true
      · simp only [List.filter_cons, gao, Bool.not_true, Bool.false_eq_true,
          if_false, gat']
        exact ih
      · have gao' : (g a == o) = false := by simpa using gao
        have hfa : f a = a := h2 a (by simpa using gat)
        simp only [List.filter_cons, gao', Bool.not_false, if_true,
          List.map_cons, hfa, gat', Bool.false_eq_true, if_false]
        exact ih

theorem rescopeChunk_scoped (t o : String) (ep : Nat) :
    ∀ c : Chunk, c.nss = t → (rescopeChunk t o ep c).nss = o := by
  intro c hc
  unfold rescopeChunk
  rw [if_pos (beq_iff_eq.mpr hc)]

theorem rescopeChunk_fixed (t o : String) (ep : Nat) :
    ∀ c : Chunk, ¬ c.nss = t → rescopeChunk t o ep c = c := by
  intro c hc
  unfold rescopeChunk
  rw [if_neg (fun hb => hc (beq_iff_eq.mp hb))]

theorem rescopeChunk_id (t o : String) (ep : Nat) (c : Chunk) :
    (rescopeChunk t o ep c).id = c.id := by
  unfold rescopeChunk
  by_cases hc : (c.nss == t) = true
  · rw [if_pos hc]
  · rw [if_neg hc]

theorem rescopeZone_scoped (t o : String) :
    ∀ z : Zone, z.nss = t → (rescopeZone t o z).nss = o := by
  intro z hz
  unfold rescopeZone
  rw [if_pos (beq_iff_eq.mpr hz)]

theorem rescopeZone_fixed (t o : String) :
    ∀ z : Zone, ¬ z.nss = t → rescopeZone t o z = z := by
  intro z hz
  unfold rescopeZone
  rw [if_neg (fun hb => hz (beq_iff_eq.mp hb))]

theorem rescopeZone_tag (t o : String) (z : Zone) :
    (rescopeZone t o z).tag = z.tag := by
  unfold rescopeZone
  by_cases hz : (z.nss == t) = true
  · rw [if_pos hz]
  · rw [if_neg hz]

theorem commitCollEntry_nss (doc : CoordinatorDoc) (ep : Nat)
    (e : CollEntry) : (commitCollEntry doc ep e).nss = e.nss := by
  unfold commitCollEntry
  by_cases h : (e.nss == doc.originalNss) = true
  · rw [if_pos h]
  · rw [if_neg h]

/-- C9: a successful persistCommittedState also removes the pre-existing
chunk and zone records scoped to the original namespace under its previous
epoch: immediately after commit, the chunk and zone records scoped to the
original namespace are exactly the rescoped former temporary-namespace
records, so the old records do not survive until the Dropping state. -/
theorem persistCommittedState_rescopes_exactly
    (st st' : CatalogState) (doc : CoordinatorDoc) (ep ec ez : Nat)
    (hne : doc.originalNss ≠ doc.tempNss)
    (h : persistCommittedState st doc ep ec ez = Except.ok st') :
    (st'.chunks.filter (fun c => c.nss == doc.originalNss) =
      (st.chunks.filter (fun c => c.nss == doc.tempNss)).map
        (rescopeChunk doc.tempNss doc.originalNss ep)) ∧
    (st'.zones.filter (fun z => z.nss == doc.originalNss) =
      (st.zones.filter (fun z => z.nss == doc.tempNss)).map
        (rescopeZone doc.tempNss doc.originalNss)) := by
  unfold persistCommittedState at h
  split at h
  · have hst := Except.ok.inj h
    have hchunks : st'.chunks = (st.chunks.filter
        (fun c => !(c.nss == doc.originalNss))).map
          (rescopeChunk doc.tempNss doc.originalNss ep) := by
      rw [← hst]
      rfl
    have hzones : st'.zones = (st.zones.filter
        (fun z => !(z.nss == doc.originalNss))).map
          (rescopeZone doc.tempNss doc.originalNss) := by
      rw [← hst]
      rfl
    constructor
    · rw [hchunks]
      exact rescope_filter_exact Chunk.nss
        (rescopeChunk doc.tempNss doc.originalNss ep) doc.tempNss
        doc.originalNss hne (rescopeChunk_scoped doc.tempNss doc.originalNss ep)
        (rescopeChunk_fixed doc.tempNss doc.originalNss ep) st.chunks
    · rw [hzones]
      exact rescope_filter_exact Zone.nss
        (rescopeZone doc.tempNss doc.originalNss) doc.tempNss
        doc.originalNss hne (rescopeZone_scoped doc.tempNss doc.originalNss)
        (rescopeZone_fixed doc.tempNss doc.originalNss) st.zones
  · exact Except.noConfusion h

/-- Witness for C9: the concrete pre-commit catalog, committed under the
new epoch 30 with expected counts 2 and 1. -/
theorem persistCommittedState_rescopes_exactly_witness :
    ((runState stMirroring (persistCommittedState stMirroring
        (mkDoc CoordinatorState.committed (some 7)) 30 2 1)).chunks.filter
      (fun c => c.nss ==
        (mkDoc CoordinatorState.committed (some 7)).originalNss) =
      (stMirroring.chunks.filter
        (fun c => c.nss ==
          (mkDoc CoordinatorState.committed (some 7)).tempNss)).map
        (rescopeChunk (mkDoc CoordinatorState.committed (some 7)).tempNss
          (mkDoc CoordinatorState.committed (some 7)).originalNss 30)) ∧
    ((runState stMirroring (persistCommittedState stMirroring
        (mkDoc CoordinatorState.committed (some 7)) 30 2 1)).zones.filter
      (fun z => z.nss ==
        (mkDoc CoordinatorState.committed (some 7)).originalNss) =
      (stMirroring.zones.filter
        (fun z => z.nss ==
          (mkDoc CoordinatorState.committed (some 7)).tempNss)).map
        (rescopeZone (mkDoc CoordinatorState.committed (some 7)).tempNss
          (mkDoc CoordinatorState.committed (some 7)).originalNss)) :=
  persistCommittedState_rescopes_exactly stMirroring _
    (mkDoc CoordinatorState.committed (some 7)) 30 2 1 (by decide) rfl

/-- C1: after persistCommittedState succeeds, the temporary namespace's
catalog entry no longer exists, the original namespace's entry exists and
carries the supplied new epoch and the new shard key pattern, and the chunk
and zone records scoped to the original namespace are, identity for
identity and in order, exactly those that were scoped to the temporary
namespace before the call: none lost, none duplicated. -/
theorem persistCommittedState_postconditions
    (st st' : CatalogState) (doc : CoordinatorDoc) (ep ec ez : Nat)
    (hne : doc.originalNss ≠ doc.tempNss)
    (hex : st.collections.filter (fun e => e.nss == doc.originalNss) ≠ [])
    (h : persistCommittedState st doc ep ec ez = Except.ok st') :
    (st'.collections.filter (fun e => e.nss == doc.tempNss) = []) ∧
    (st'.collections.filter (fun e => e.nss == doc.originalNss) ≠ []) ∧
    (∀ e ∈ st'.collections, e.nss = doc.originalNss →
      e.epoch = ep ∧ e.keyPattern = doc.reshardingKey) ∧
    ((st'.chunks.filter (fun c => c.nss == doc.originalNss)).map Chunk.id =
      (st.chunks.filter (fun c => c.nss == doc.tempNss)).map Chunk.id) ∧
    ((st'.zones.filter (fun z => z.nss == doc.originalNss)).map Zone.tag =
      (st.zones.filter (fun z => z.nss == doc.tempNss)).map Zone.tag) := by
  unfold persistCommittedState at h
  split at h
  case isFalse => exact Except.noConfusion h
  have hst := Except.ok.inj h
  have hcolls : st'.collections = (st.collections.filter
      (fun e => !(e.nss == doc.tempNss))).map (commitCollEntry doc ep) := by
    rw [← hst]
    rfl
  have hchunks : st'.chunks = (st.chunks.filter
      (fun c => !(c.nss == doc.originalNss))).map
        (rescopeChunk doc.tempNss doc.originalNss ep) := by
    rw [← hst]
    rfl
  have hzones : st'.zones = (st.zones.filter
      (fun z => !(z.nss == doc.originalNss))).map
        (rescopeZone doc.tempNss doc.originalNss) := by
    rw [← hst]
    rfl
  refine ⟨?_, ?_, ?_, ?_, ?_⟩
  · rw [hcolls]
    apply List.filter_eq_nil_iff.mpr
    intro e he hb
    rcases List.mem_map.mp he with ⟨e0, he0, rfl⟩
    rw [commitCollEntry_nss] at hb
    have h2 := (List.mem_filter.mp he0).2
    simp [hb] at h2
  · rcases List.exists_mem_of_ne_nil _ hex with ⟨e0, he0⟩
    obtain ⟨he0l, hp⟩ := List.mem_filter.mp he0
    have hq : (!(e0.nss == doc.tempNss)) = true := by
      rw [beq_iff_eq] at hp
      rw [hp]
      simp only [Bool.not_eq_true', beq_eq_false_iff_ne, ne_eq]
      exact hne
    have hmemf : e0 ∈ st.collections.filter
        (fun e => !(e.nss == doc.tempNss)) :=
      List.mem_filter.mpr ⟨he0l, hq⟩
    have hmemm : commitCollEntry doc ep e0 ∈ (st.collections.filter
        (fun e => !(e.nss == doc.tempNss))).map (commitCollEntry doc ep) :=
      List.mem_map.mpr ⟨e0, hmemf, rfl⟩
    rw [hcolls]
    apply List.ne_nil_of_mem
    refine List.mem_filter.mpr ⟨hmemm, ?_⟩
    rw [commitCollEntry_nss]
    exact hp
  · rw [hcolls]
    intro e he ho
    rcases List.mem_map.mp he with ⟨e0, _, rfl⟩
    rw [commitCollEntry_nss] at ho
    have hp : (e0.nss == doc.originalNss) = true := beq_iff_eq.mpr ho
    simp [commitCollEntry, hp]
  · rw [hchunks, rescope_filter_exact Chunk.nss
      (rescopeChunk doc.tempNss doc.originalNss ep) doc.tempNss
      doc.originalNss hne (rescopeChunk_scoped doc.tempNss doc.originalNss ep)
      (rescopeChunk_fixed doc.tempNss doc.originalNss ep) st.chunks,
      List.map_map]
    apply List.map_congr_left
    intro c _
    simp only [Function.comp_apply]
    exact rescopeChunk_id doc.tempNss doc.originalNss ep c
  · rw [hzones, rescope_filter_exact Zone.nss
      (rescopeZone doc.tempNss doc.originalNss) doc.tempNss
      doc.originalNss hne (rescopeZone_scoped doc.tempNss doc.originalNss)
      (rescopeZone_fixed doc.tempNss doc.originalNss) st.zones,
      List.map_map]
    apply List.map_congr_left
    intro z _
    simp only [Function.comp_apply]
    exact rescopeZone_tag doc.tempNss doc.originalNss z

/-- Witness for C1: the concrete pre-commit catalog committed under new
epoch 30 with the matching expected counts. -/
theorem persistCommittedState_postconditions_witness :
    ((runState stMirroring (persistCommittedState stMirroring
        (mkDoc CoordinatorState.committed (some 7)) 30 2 1)).collections.filter
      (fun e => e.nss ==
        (mkDoc CoordinatorState.committed (some 7)).tempNss) = []) ∧
    ((runState stMirroring (persistCommittedState stMirroring
        (mkDoc CoordinatorState.committed (some 7)) 30 2 1)).collections.filter
      (fun e => e.nss ==
        (mkDoc CoordinatorState.committed (some 7)).originalNss) ≠ []) ∧
    (∀ e ∈ (runState stMirroring (persistCommittedState stMirroring
        (mkDoc CoordinatorState.committed (some 7)) 30 2 1)).collections,
      e.nss = (mkDoc CoordinatorState.committed (some 7)).originalNss →
      e.epoch = 30 ∧ e.keyPattern =
        (mkDoc CoordinatorState.committed (some 7)).reshardingKey) ∧
    (((runState stMirroring (persistCommittedState stMirroring
        (mkDoc CoordinatorState.committed (some 7)) 30 2 1)).chunks.filter
      (fun c => c.nss ==
        (mkDoc CoordinatorState.committed (some 7)).originalNss)).map Chunk.id =
      (stMirroring.chunks.filter
        (fun c => c.nss ==
          (mkDoc CoordinatorState.committed (some 7)).tempNss)).map Chunk.id) ∧
    (((runState stMirroring (persistCommittedState stMirroring
        (mkDoc CoordinatorState.committed (some 7)) 30 2 1)).zones.filter
      (fun z => z.nss ==
        (mkDoc CoordinatorState.committed (some 7)).originalNss)).map Zone.tag =
      (stMirroring.zones.filter
        (fun z => z.nss ==
          (mkDoc CoordinatorState.committed (some 7)).tempNss)).map Zone.tag) :=
  persistCommittedState_postconditions stMirroring _
    (mkDoc CoordinatorState.committed (some 7)) 30 2 1 (by decide) (by decide)
    rfl

theorem setDonorFieldsOn_idem (doc : CoordinatorDoc) (e : CollEntry) :
    setDonorFieldsOn doc (setDonorFieldsOn doc e) = setDonorFieldsOn doc e := by
  unfold setDonorFieldsOn
  by_cases h : (e.nss == doc.originalNss) = true
  · simp [h]
  · simp [h]

theorem commitCollEntry_idem (doc : CoordinatorDoc) (ep : Nat)
    (e : CollEntry) :
    commitCollEntry doc ep (commitCollEntry doc ep e) =
      commitCollEntry doc ep e := by
  unfold commitCollEntry
  by_cases h : (e.nss == doc.originalNss) = true
  · simp [h]
  · simp [h]

/-- C7: re-invoking persistInitialStateAndCatalogUpdates or
persistCommittedState a second time with arguments identical to a first
successful application leaves the observable catalog state unchanged and
creates no duplicate chunk or zone records: the initialization replay
succeeds and returns the same catalog, and the commit replay leaves the
catalog exactly as it was (its writes are keyed overwrites, never
appends). -/
theorem persist_replay_idempotent
    (stA stB st1 st2 : CatalogState) (doc : CoordinatorDoc)
    (te ep ec ez : Nat) (cs : List Chunk) (zs : List Zone)
    (hne : doc.originalNss ≠ doc.tempNss)
    (hdistc : cs.Pairwise (fun a b => ¬ a.id = b.id))
    (hdistz : zs.Pairwise (fun a b => ¬ (a.nss, a.tag) = (b.nss, b.tag)))
    (h1 : persistInitialStateAndCatalogUpdates stA doc te cs zs =
      Except.ok st1)
    (h2 : persistCommittedState stB doc ep ec ez = Except.ok st2) :
    persistInitialStateAndCatalogUpdates st1 doc te cs zs = Except.ok st1 ∧
    runState st2 (persistCommittedState st2 doc ep ec ez) = st2 := by
  constructor
  · unfold persistInitialStateAndCatalogUpdates at h1
    split at h1
    case isFalse => exact Except.noConfusion h1
    case isTrue hg =>
      have hst := Except.ok.inj h1
      rcases List.find?_isSome.mp hg with ⟨e0, he0, hp⟩
      have hpe : e0.nss = doc.originalNss := beq_iff_eq.mp hp
      have hA : setDonorFieldsOn doc e0 ∈
          stA.collections.map (setDonorFieldsOn doc) :=
        List.mem_map.mpr ⟨e0, he0, rfl⟩
      have hk : ¬ CollEntry.nss (setDonorFieldsOn doc e0) =
          CollEntry.nss (tempCollEntry doc te) := by
        rw [setDonorFieldsOn_nss, hpe]
        exact hne
      have hmem1 : setDonorFieldsOn doc e0 ∈ upsertBy CollEntry.nss
          (stA.collections.map (setDonorFieldsOn doc))
          (tempCollEntry doc te) :=
        upsertBy_preserve_mem CollEntry.nss (tempCollEntry doc te) hA hk
      have hmem1' : setDonorFieldsOn doc e0 ∈ st1.collections := by
        rw [← hst]
        exact hmem1
      have hg2 : (st1.collections.find?
          (fun e => e.nss == doc.originalNss)).isSome = true := by
        apply List.find?_isSome.mpr
        refine ⟨setDonorFieldsOn doc e0, hmem1', ?_⟩
        rw [setDonorFieldsOn_nss]
        exact hp
      have hops : upsertBy CoordinatorDoc.operationId st1.operations doc =
          st1.operations := by
        rw [← hst]
        exact upsertBy_idem CoordinatorDoc.operationId stA.operations doc
      have hmapA : (stA.collections.map (setDonorFieldsOn doc)).map
          (setDonorFieldsOn doc) =
          stA.collections.map (setDonorFieldsOn doc) := by
        rw [List.map_map]
        apply List.map_congr_left
        intro e _
        simp only [Function.comp_apply]
        exact setDonorFieldsOn_idem doc e
      have hsdx : setDonorFieldsOn doc (tempCollEntry doc te) =
          tempCollEntry doc te := by
        unfold setDonorFieldsOn
        exact if_neg (fun hb => hne (beq_iff_eq.mp hb).symm)
      have hcolls : upsertBy CollEntry.nss
          (st1.collections.map (setDonorFieldsOn doc))
          (tempCollEntry doc te) = st1.collections := by
        have hmapst1 : (upsertBy CollEntry.nss
            (stA.collections.map (setDonorFieldsOn doc))
            (tempCollEntry doc te)).map (setDonorFieldsOn doc) =
            upsertBy CollEntry.nss
              (stA.collections.map (setDonorFieldsOn doc))
              (tempCollEntry doc te) := by
          rw [map_upsertBy_comm CollEntry.nss (setDonorFieldsOn doc)
            (setDonorFieldsOn_nss doc), hmapA, hsdx]
        have hexp : upsertBy CollEntry.nss
            ((upsertBy CollEntry.nss
              (stA.collections.map (setDonorFieldsOn doc))
              (tempCollEntry doc te)).map (setDonorFieldsOn doc))
            (tempCollEntry doc te) =
            upsertBy CollEntry.nss
              (stA.collections.map (setDonorFieldsOn doc))
              (tempCollEntry doc te) := by
          rw [hmapst1]
          exact upsertBy_idem CollEntry.nss
            (stA.collections.map (setDonorFieldsOn doc)) (tempCollEntry doc te)
        rw [← hst]
        exact hexp
      have hchunks : cs.foldl (upsertBy Chunk.id) st1.chunks = st1.chunks := by
        rw [← hst]
        exact foldl_upsertBy_replay Chunk.id cs stA.chunks hdistc
      have hzones : zs.foldl (upsertBy (fun z => (z.nss, z.tag)))
          st1.zones = st1.zones := by
        rw [← hst]
        exact foldl_upsertBy_replay (fun z => (z.nss, z.tag)) zs stA.zones
          hdistz
      unfold persistInitialStateAndCatalogUpdates
      rw [if_pos hg2]
      congr 1
      rw [hops, hcolls, hchunks, hzones]
  · unfold persistCommittedState at h2
    split at h2
    case isFalse => exact Except.noConfusion h2
    case isTrue hg =>
      have hst := Except.ok.inj h2
      simp only [Bool.and_eq_true, beq_iff_eq] at hg
      obtain ⟨⟨hc1, hz1⟩, hf1⟩ := hg
      unfold persistCommittedState
      by_cases hg2 : (((st2.chunks.filter
            (fun c => c.nss == doc.tempNss)).length == ec)
          && ((st2.zones.filter (fun z => z.nss == doc.tempNss)).length == ez)
          && (st2.operations.find?
            (fun d => d.operationId == doc.operationId)).isSome) = true
      case neg =>
        rw [if_neg hg2]
        rfl
      case pos =>
        rw [if_pos hg2]
        show applyCommit st2 doc ep = st2
        simp only [Bool.and_eq_true, beq_iff_eq] at hg2
        obtain ⟨⟨hc2, hz2⟩, hf2⟩ := hg2
        have hnotemp : ∀ c ∈ st2.chunks, ¬ (c.nss == doc.tempNss) = true := by
          intro c hc hceq
          rw [← hst] at hc
          rcases List.mem_map.mp hc with ⟨c0, hc0, rfl⟩
          by_cases h0 : (c0.nss == doc.tempNss) = true
          · have hro := rescopeChunk_scoped doc.tempNss doc.originalNss ep c0
              (beq_iff_eq.mp h0)
            rw [beq_iff_eq] at hceq
            rw [hro] at hceq
            exact hne hceq
          · have hfix := rescopeChunk_fixed doc.tempNss doc.originalNss ep c0
              (fun hh => h0 (beq_iff_eq.mpr hh))
            rw [hfix] at hceq
            exact h0 hceq
        have hnotempz : ∀ z ∈ st2.zones, ¬ (z.nss == doc.tempNss) = true := by
          intro z hz hzeq
          rw [← hst] at hz
          rcases List.mem_map.mp hz with ⟨z0, hz0, rfl⟩
          by_cases h0 : (z0.nss == doc.tempNss) = true
          · have hro := rescopeZone_scoped doc.tempNss doc.originalNss z0
              (beq_iff_eq.mp h0)
            rw [beq_iff_eq] at hzeq
            rw [hro] at hzeq
            exact hne hzeq
          · have hfix := rescopeZone_fixed doc.tempNss doc.originalNss z0
              (fun hh => h0 (beq_iff_eq.mpr hh))
            rw [hfix] at hzeq
            exact h0 hzeq
        have hempty : st2.chunks.filter (fun c => c.nss == doc.tempNss) = [] :=
          List.filter_eq_nil_iff.mpr hnotemp
        have hemptyz : st2.zones.filter (fun z => z.nss == doc.tempNss) = [] :=
          List.filter_eq_nil_iff.mpr hnotempz
        have hec : ec = 0 := by
          rw [hempty] at hc2
          simpa using hc2.symm
        have hez : ez = 0 := by
          rw [hemptyz] at hz2
          simpa using hz2.symm
        have hBtemp : ∀ c ∈ stB.chunks, ¬ (c.nss == doc.tempNss) = true := by
          apply List.filter_eq_nil_iff.mp
          apply List.length_eq_zero.mp
          rw [hc1, hec]
        have hBtempz : ∀ z ∈ stB.zones, ¬ (z.nss == doc.tempNss) = true := by
          apply List.filter_eq_nil_iff.mp
          apply List.length_eq_zero.mp
          rw [hz1, hez]
        have hopsB : upsertBy CoordinatorDoc.operationId st2.operations doc =
            st2.operations := by
          rw [← hst]
          exact upsertBy_idem CoordinatorDoc.operationId stB.operations doc
        have hmapid : (stB.chunks.filter
            (fun c => !(c.nss == doc.originalNss))).map
              (rescopeChunk doc.tempNss doc.originalNss ep) =
            stB.chunks.filter (fun c => !(c.nss == doc.originalNss)) :=
          map_pointwise_id (fun c hc =>
            rescopeChunk_fixed doc.tempNss doc.originalNss ep c
              (fun hh => hBtemp c (List.mem_filter.mp hc).1
                (beq_iff_eq.mpr hh)))
        have hchB : (st2.chunks.filter
            (fun c => !(c.nss == doc.originalNss))).map
              (rescopeChunk doc.tempNss doc.originalNss ep) = st2.chunks := by
          have hexp : (((stB.chunks.filter
              (fun c => !(c.nss == doc.originalNss))).map
                (rescopeChunk doc.tempNss doc.originalNss ep)).filter
              (fun c => !(c.nss == doc.originalNss))).map
                (rescopeChunk doc.tempNss doc.originalNss ep) =
              (stB.chunks.filter (fun c => !(c.nss == doc.originalNss))).map
                (rescopeChunk doc.tempNss doc.originalNss ep) := by
            rw [hmapid, List.filter_eq_self.mpr
              (fun c hc => (List.mem_filter.mp hc).2)]
            exact hmapid
          rw [← hst]
          exact hexp
        have hmapidz : (stB.zones.filter
            (fun z => !(z.nss == doc.originalNss))).map
              (rescopeZone doc.tempNss doc.originalNss) =
            stB.zones.filter (fun z => !(z.nss == doc.originalNss)) :=
          map_pointwise_id (fun z hz =>
            rescopeZone_fixed doc.tempNss doc.originalNss z
              (fun hh => hBtempz z (List.mem_filter.mp hz).1
                (beq_iff_eq.mpr hh)))
        have hzoB : (st2.zones.filter
            (fun z => !(z.nss == doc.originalNss))).map
              (rescopeZone doc.tempNss doc.originalNss) = st2.zones := by
          have hexp : (((stB.zones.filter
              (fun z => !(z.nss == doc.originalNss))).map
                (rescopeZone doc.tempNss doc.originalNss)).filter
              (fun z => !(z.nss == doc.originalNss))).map
                (rescopeZone doc.tempNss doc.originalNss) =
              (stB.zones.filter (fun z => !(z.nss == doc.originalNss))).map
                (rescopeZone doc.tempNss doc.originalNss) := by
            rw [hmapidz, List.filter_eq_self.mpr
              (fun z hz => (List.mem_filter.mp hz).2)]
            exact hmapidz
          rw [← hst]
          exact hexp
        have hcoB : (st2.collections.filter
            (fun e => !(e.nss == doc.tempNss))).map
              (commitCollEntry doc ep) = st2.collections := by
          have hexp : (((stB.collections.filter
              (fun e => !(e.nss == doc.tempNss))).map
                (commitCollEntry doc ep)).filter
              (fun e => !(e.nss == doc.tempNss))).map
                (commitCollEntry doc ep) =
              (stB.collections.filter (fun e => !(e.nss == doc.tempNss))).map
                (commitCollEntry doc ep) := by
            rw [filter_map_pred (commitCollEntry doc ep)
              (fun e => !(e.nss == doc.tempNss))
              (fun e => by simp only [commitCollEntry_nss]) _]
            rw [List.filter_eq_self.mpr
              (fun e he => (List.mem_filter.mp he).2)]
            rw [List.map_map]
            apply List.map_congr_left
            intro e _
            simp only [Function.comp_apply]
            exact commitCollEntry_idem doc ep e
          rw [← hst]
          exact hexp
        unfold applyCommit
        rw [hopsB, hcoB, hchB, hzoB]

/-- Witness for C7: a concrete initialization replayed on its own result
and a concrete commit replayed on its own result. -/
theorem persist_replay_idempotent_witness :
    persistInitialStateAndCatalogUpdates
        (runState stWithOrig (persistInitialStateAndCatalogUpdates stWithOrig
          (mkDoc CoordinatorState.committed (some 7)) 20 [tChunk1, tChunk2]
          [tZone1]))
        (mkDoc CoordinatorState.committed (some 7)) 20 [tChunk1, tChunk2]
        [tZone1] =
      Except.ok (runState stWithOrig (persistInitialStateAndCatalogUpdates
        stWithOrig (mkDoc CoordinatorState.committed (some 7)) 20
        [tChunk1, tChunk2] [tZone1])) ∧
    runState (runState stMirroring (persistCommittedState stMirroring
        (mkDoc CoordinatorState.committed (some 7)) 30 2 1))
      (persistCommittedState (runState stMirroring (persistCommittedState
        stMirroring (mkDoc CoordinatorState.committed (some 7)) 30 2 1))
        (mkDoc CoordinatorState.committed (some 7)) 30 2 1) =
      runState stMirroring (persistCommittedState stMirroring
        (mkDoc CoordinatorState.committed (some 7)) 30 2 1) :=
  persist_replay_idempotent stWithOrig stMirroring _ _
    (mkDoc CoordinatorState.committed (some 7)) 20 30 2 1
    [tChunk1, tChunk2] [tZone1] (by decide) (by decide) (by decide) rfl rfl
